import Mathlib

/-!
Shallow embedding of the orchestration pipeline of the langchain-app
repository (a retrieval-augmented answering service), together with
theorems checking its natural-language specification.

Strings are modelled as `List Char`; Python `None`-able values as
`Option`; floating-point relevance scores as opaque `Int` values (no
claim depends on score arithmetic); external I/O results (scorer HTTP
replies, LLM stream traces) as explicit input data.  Each definition is
translated from the named source function.
-/

/-- Python whitespace test for the ASCII whitespace characters stripped
by `str.strip()` / `str.rstrip()`. -/
def isSpaceChar (c : Char) : Bool :=
  c = ' ' || c = '\t' || c = '\n' || c = '\r' || c = '\x0b' || c = '\x0c'

/-- Python `str.lstrip()` on a list of characters. -/
def pyLStrip (s : List Char) : List Char := s.dropWhile isSpaceChar

/-- Python `str.rstrip()` on a list of characters. -/
def pyRStrip (s : List Char) : List Char := (s.reverse.dropWhile isSpaceChar).reverse

/-- Python `str.strip()` on a list of characters. -/
def pyStrip (s : List Char) : List Char := pyRStrip (pyLStrip s)

/-- Python `x or dflt` for an optional string `x` (both `None` and the
empty string are falsy and select the default). -/
def pyOr (o : Option (List Char)) (dflt : List Char) : List Char :=
  match o with
  | some s => if s = [] then dflt else s
  | none => dflt

/-- Python `s.startswith(p)` on lists of characters. -/
def hasPrefixL (p s : List Char) : Bool := s.take p.length = p

/-- One candidate document as produced by `os_search`
(src/app/retrieval.py, lines 173-183): keys `id`, `score`, `pmid`,
`title`, `text`, `s3`.  The root `src/main.py` variant also carries a
`url` key, so the record keeps an optional `url` field (absent for the
app variant's documents).  `s3` is opaque origin metadata, modelled by
an opaque tag. -/
structure Passage where
  id : Option Nat
  score : Int
  pmid : Option Nat
  title : Option (List Char)
  text : List Char
  s3 : Option Nat
  url : Option (List Char)
deriving DecidableEq

/-- One entry of the external scorer's ranked result list, `{id, score}`
(the reranker contract). `item.get("id")` may be absent, hence `Option`. -/
structure Entry where
  id : Option Nat
  score : Int
deriving DecidableEq

/-- Outcome of one reranker HTTP call attempt, as seen by
`call_reranker`: either the transport raised (httpx exception), or a
response arrived with a status code and a body.  For a parseable JSON
body, `entries = none` models one from which neither accepted key
(`reranked` / `results`) yields a truthy value, so `data.get("reranked")
or data.get("results") or []` falls back to `[]`.  `responseUnparseable`
models a response whose result-list extraction raises: a body that is
not valid JSON (`r.json()` raises) or whose truthy extracted value is
not a list of mappings (the `reranked[:top_k]` slice or `item.get`
raises). -/
inductive ScorerReply where
  | transportFail
  | response (status : Nat) (entries : Option (List Entry))
  | responseUnparseable (status : Nat)
deriving DecidableEq

/-- Result of the Rerank-Merge stage: either the turn aborts with an
HTTP error status (an exception such as fastapi `HTTPException` was
raised), or a merged document list is returned. -/
inductive RerankOutcome where
  | error (status : Nat)
  | ok (docs : List Passage)
deriving DecidableEq

/-- The candidate map `by_id = {p.get("id"): p for p in passages if
p.get("id") is not None}` (src/app/retrieval.py line 217): a Python
dict comprehension keeps the LAST passage for a duplicated id, so the
lookup prefers later list entries. -/
def lookupById (passages : List Passage) (i : Nat) : Option Passage :=
  match passages with
  | [] => none
  | p :: rest =>
    match lookupById rest i with
    | some q => some q
    | none => if p.id = some i then some p else none

/-- One iteration of the merge loop of src/app/retrieval.py lines
219-223: look the entry's id up in `by_id`; an unmatched or id-less
entry gives an empty base and is skipped (`if not base: continue`);
a matched entry yields `{**base, **item}`, i.e. the original candidate
with `id` and `score` taken from the scorer entry. -/
def mergeOne (passages : List Passage) (e : Entry) : Option Passage :=
  match e.id with
  | none => none
  | some i =>
    match lookupById passages i with
    | none => none
    | some p => some { p with id := some i, score := e.score }

/-- The merge loop of src/app/retrieval.py lines 218-223 over the
capped entry list. -/
def mergeEntries (passages : List Passage) (entries : List Entry) : List Passage :=
  entries.filterMap (mergeOne passages)

/-- Embeds `call_reranker` from src/app/retrieval.py lines 187-226:
empty candidate list returns `[]` before any external call; a transport
exception is re-raised as `HTTPException(502)`; a non-200 status raises
`HTTPException(502)` (the status check at line 208 precedes body
parsing, so it wins for any body); otherwise the (possibly missing)
result list is capped at `top_k`, merged onto the original passages,
and an empty merge result falls back to `passages[:top_k]`.  An
unparseable 200 body raises OUTSIDE the try (line 213 `r.json()`, or
lines 219-220 slice/`item.get`): the exception is uncaught here and in
the callers, aborting the turn as a server error (modelled as status
500), not reaching the fallback. -/
def call_reranker (reply : ScorerReply) (passages : List Passage) (topK : Nat) :
    RerankOutcome :=
  if passages = [] then .ok []
  else
    match reply with
    | .transportFail => .error 502
    | .response status entries =>
      if status ≠ 200 then .error 502
      else
        let merged := mergeEntries passages ((entries.getD []).take topK)
        .ok (if merged = [] then passages.take topK else merged)
    | .responseUnparseable status =>
      if status ≠ 200 then .error 502 else .error 500

/-- A dict with no keys beyond the scorer entry's own `id`/`score`:
the base used by the root src/main.py merge when the id lookup misses
(`by_id.get(item.get("id"), {})` with no `continue`).  Missing keys are
modelled as `none` / empty values. -/
def emptyBase : Passage :=
  { id := none, score := 0, pmid := none, title := none, text := [], s3 := none,
    url := none }

/-- One iteration of the merge loop of the root src/main.py lines
151-156: unlike the app variant, an unmatched entry is NOT skipped; it
is merged onto the empty base, producing a bare id/score record. -/
def mergeOneKeep (passages : List Passage) (e : Entry) : Passage :=
  let base :=
    match e.id with
    | none => emptyBase
    | some i => (lookupById passages i).getD emptyBase
  { base with id := e.id, score := e.score }

/-- Embeds `call_reranker` from the root src/main.py lines 133-160: the
HTTP post is not wrapped in try/except, so a transport exception
propagates as an unhandled server error (modelled as status 500); a
non-200 status raises `HTTPException(502)`; every capped entry is
merged (unmatched ones kept on an empty base); an empty output list
falls back to `passages[:top_k]`. -/
def call_reranker_mainpy (reply : ScorerReply) (passages : List Passage)
    (topK : Nat) : RerankOutcome :=
  if passages = [] then .ok []
  else
    match reply with
    | .transportFail => .error 500
    | .response status entries =>
      if status ≠ 200 then .error 502
      else
        let out := ((entries.getD []).take topK).map (mergeOneKeep passages)
        .ok (if out = [] then passages.take topK else out)
    | .responseUnparseable status =>
      if status ≠ 200 then .error 502 else .error 500

/-- A sample candidate document used by concrete witnesses below. -/
def samplePassage : Passage :=
  { id := some 1, score := 3, pmid := none, title := some ['T'],
    text := ['f', 'o', 'o'], s3 := none, url := none }

/-- The character appended by the truncation in `render_context`
(src/app/chain.py line 95): a single U+2026 horizontal ellipsis. -/
def ellipsisChar : Char := '…'

/-- The LITERAL appended by `_shorten` (src/chainlit/cl_app.py line 64):
on disk those bytes decode to the three characters U+00E2, U+20AC,
U+00A6 (a double-encoded ellipsis), not to a single ellipsis. -/
def mojibakeEllipsis : List Char := [Char.ofNat 0xE2, Char.ofNat 0x20AC, Char.ofNat 0xA6]

/-- Per-snippet truncation of `render_context` (src/app/chain.py lines
94-95), applied to the already-stripped snippet text: when the limit is
non-zero (Python truthiness of `max_chars`) and the text is strictly
longer, keep the first `max_chars` characters, right-strip them, and
append one ellipsis character; otherwise leave the text unchanged. -/
def truncateSnippet (maxChars : Nat) (text : List Char) : List Char :=
  if maxChars ≠ 0 ∧ text.length > maxChars then
    pyRStrip (text.take maxChars) ++ [ellipsisChar]
  else text

/-- Embeds `_shorten` from src/chainlit/cl_app.py lines 60-64: empty
input maps to empty; otherwise the stripped text is returned unchanged
when within the limit, else cut to `max_len - 1` characters with the
(three-character) ellipsis literal appended. -/
def pyShorten (text : List Char) (maxLen : Nat) : List Char :=
  if text = [] then []
  else
    let t := pyStrip text
    if t.length > maxLen then t.take (maxLen - 1) ++ mojibakeEllipsis else t

/-- Decimal digit character for one digit value, as `str()` renders it. -/
def digitChar (d : Nat) : Char :=
  if d = 0 then '0' else if d = 1 then '1' else if d = 2 then '2'
  else if d = 3 then '3' else if d = 4 then '4' else if d = 5 then '5'
  else if d = 6 then '6' else if d = 7 then '7' else if d = 8 then '8'
  else if d = 9 then '9' else '?'

/-- Fuel-driven most-significant-first decimal digit expansion; `fuel ≥ n`
always suffices. -/
def natDigitsAux : Nat → Nat → List Char
  | 0, _ => []
  | fuel + 1, n =>
    if n = 0 then [] else natDigitsAux fuel (n / 10) ++ [digitChar (n % 10)]

/-- Decimal rendering of a natural number, as Python string formatting
produces it inside `f"[{i}] ..."`. -/
def natDigits (n : Nat) : List Char := if n = 0 then ['0'] else natDigitsAux n n

/-- Decimal digit test on characters. -/
def isDigitChar (c : Char) : Bool := 48 ≤ c.toNat && c.toNat ≤ 57

/-- Numeric value of a decimal digit character. -/
def digitVal (c : Char) : Nat := c.toNat - 48

/-- Parse a decimal digit list back into a natural number. -/
def parseNat (ds : List Char) : Nat := ds.foldl (fun a c => a * 10 + digitVal c) 0

/-- Default title used by `render_context` for falsy titles. -/
def untitledText : List Char := "Untitled".toList

/-- The part of a rendered snippet line after `"[i] "`:
title, optional url annotation, newline, truncated body, newline
(src/app/chain.py lines 85-103).  The source reads the PMID from the
keys `metadata` / `PMID`, which the `os_search` documents do not carry
(they carry lowercase `pmid`), so the PMID annotation and the
PMID-synthesized url resolve to nothing on pipeline documents and only
an explicit `url` key contributes. -/
def renderEntryTail (maxChars : Nat) (d : Passage) : List Char :=
  let url := pyStrip (pyOr d.url [])
  pyStrip (pyOr d.title untitledText)
    ++ (if url = [] then [] else ' ' :: url)
    ++ '\n' :: (truncateSnippet maxChars (pyStrip d.text) ++ ['\n'])

/-- One element of the `lines` list built by `render_context` for the
1-based position `i`: the citation header `"[i] ..."` followed by the
truncated snippet. -/
def renderEntry (maxChars i : Nat) (d : Passage) : List Char :=
  '[' :: (natDigits i ++ (']' :: ' ' :: renderEntryTail maxChars d))

/-- The `lines` list of `render_context` (src/app/chain.py lines 83-103):
one rendered entry per document, numbered from 1 in list order. -/
def renderLines (maxChars : Nat) (docs : List Passage) : List (List Char) :=
  (List.zip (List.range' 1 docs.length) docs).map fun p => renderEntry maxChars p.1 p.2

/-- Join with a separator, Python `sep.join(lines)`. -/
def joinSep (sep : List Char) : List (List Char) → List Char
  | [] => []
  | [x] => x
  | x :: y :: xs => x ++ sep ++ joinSep sep (y :: xs)

/-- Embeds `render_context` (src/app/chain.py lines 76-105): the
rendered entries joined by a newline. -/
def render_context (maxChars : Nat) (docs : List Passage) : List Char :=
  joinSep ['\n'] (renderLines maxChars docs)

/-- Extract the citation number from the front of a rendered entry:
an opening bracket, a non-empty run of decimal digits, and a closing
bracket. -/
def headerNum (line : List Char) : Option Nat :=
  match line with
  | '[' :: rest =>
    let ds := rest.takeWhile isDigitChar
    if ds = [] then none
    else
      match rest.drop ds.length with
      | ']' :: _ => some (parseNat ds)
      | _ => none
  | _ => none

/-- Client-facing source record produced by the /query endpoint of
src/app/main.py lines 58-76: one record per reranked document. -/
structure SourceRecord where
  id : Option Nat
  score : Int
  title : Option (List Char)
  text : Option (List Char)
  pmid : Option Nat
  s3 : Option Nat
  url : Option (List Char)
deriving DecidableEq

/-- The display-shortening lambda of src/app/main.py lines 63-65:
texts longer than 500 characters keep their first 500 characters plus
one ellipsis. -/
def shortenText500 (t : List Char) : List Char :=
  if t.length > 500 then t.take 500 ++ [ellipsisChar] else t

/-- The PubMed link template `f"https://pubmed.ncbi.nlm.nih.gov/{pmid}/"`. -/
def pubmedUrl (pmid : Nat) : List Char :=
  "https://pubmed.ncbi.nlm.nih.gov/".toList ++ natDigits pmid ++ ['/']

/-- The url field of a source record: the document's own url if truthy,
else synthesized from a truthy pmid, else absent. -/
def sourceUrl (d : Passage) : Option (List Char) :=
  let fallback : Option (List Char) :=
    match d.pmid with
    | some p => some (pubmedUrl p)
    | none => none
  match d.url with
  | some u => if u = [] then fallback else some u
  | none => fallback

/-- Projection of one reranked document into the response source shape
(src/app/main.py lines 58-76). -/
def toSource (d : Passage) : SourceRecord :=
  { id := d.id, score := d.score, title := d.title,
    text := some (shortenText500 d.text), pmid := d.pmid, s3 := d.s3,
    url := sourceUrl d }

/-- The fixed empty-retrieval answer string. -/
def apology : List Char :=
  "I couldn".toList ++ [Char.ofNat 39] ++ "t find anything relevant.".toList

/-- Result of one /query turn: a normal response or an aborted turn
carrying the HTTP error status of the exception that ended it. -/
inductive TurnResult where
  | ok (answer : List Char) (sources : List SourceRecord)
  | httpError (status : Nat)
deriving DecidableEq

/-- The sanity cap `k = max(1, min(req.k or 50, 200))` of
src/app/main.py line 38. -/
def capK (k : Nat) : Nat := max 1 (min k 200)

/-- The sanity cap `top_k = max(1, min(req.top_k or 10, k))` of
src/app/main.py line 39. -/
def capTopK (topK k : Nat) : Nat := max 1 (min topK k)

/-- Embeds the /query handler of src/app/main.py lines 35-77.  The
retrieval result `raw`, the readiness of the pooled HTTP client, the
scorer reply and the LLM call result are explicit inputs; `render_context`
is applied to the reranked list on the way to the LLM (the theorems
below relate the response to it).  An empty retrieval short-circuits to
the fixed apology before the client-readiness check, the rerank call
and the generation call; a rerank exception or generation failure
aborts the turn. -/
def query (raw : List Passage) (httpReady : Bool) (reply : ScorerReply)
    (llmAnswer : Option (List Char)) (k topK : Nat) : TurnResult :=
  let tk := capTopK topK (capK k)
  if raw = [] then .ok apology []
  else if httpReady = false then .httpError 503
  else
    match call_reranker reply raw tk with
    | .error s => .httpError s
    | .ok reranked =>
      match llmAnswer with
      | none => .httpError 502
      | some ans => .ok (pyStrip ans) (reranked.map toSource)

/-- The clarifier ready marker `READY_PREFIX` (default `"READY:"`). -/
def readyMarker : List Char := "READY:".toList

/-- The explicit escape command prefix `"/rag "`. -/
def ragCommand : List Char := "/rag ".toList

/-- The fixed fallback prompt sent when the clarifier produced no text. -/
def clarifyMoreText : List Char := "Could you clarify a bit more?".toList

/-- Outcome of the clarify phase of one chat turn: either proceed to
retrieval with a final query, or send a conversational reply and end
the turn without any retrieval call. -/
inductive Phase0 where
  | search (finalQuery : List Char)
  | reply (text : List Char)
deriving DecidableEq

/-- Embeds Phase 0 of `on_message` (src/chainlit/cl_app.py lines
193-227): the `/rag ` escape bypasses the model; with `ALWAYS_RAG` the
clarifier is skipped; otherwise the model reply (empty on exception,
`clarifierOut = none`) is stripped and inspected: a reply starting with
the ready marker proceeds to search with the stripped remainder (or the
original utterance when the remainder is empty); a non-empty reply is
sent back as the assistant turn; an empty reply falls through to the
fixed clarify-more prompt.  Every `reply` outcome returns before the
search step, so no retrieval call happens on such a turn. -/
def phase0 (alwaysRag : Bool) (q : List Char) (clarifierOut : Option (List Char)) :
    Phase0 :=
  if hasPrefixL ragCommand q then
    let r := pyStrip (q.drop ragCommand.length)
    .search (if r = [] then q else r)
  else if alwaysRag then .search q
  else
    let out := pyStrip (clarifierOut.getD [])
    if hasPrefixL readyMarker out then
      let r := pyStrip (out.drop readyMarker.length)
      .search (if r = [] then q else r)
    else if out = [] then .reply clarifyMoreText
    else .reply out

/-- One heterogeneous value yielded by the model stream or returned by
the blocking call, as inspected by `_ensure_text`
(src/chainlit/cl_app.py lines 67-82): Python `None`, a plain string, an
object carrying a `content` attribute, a mapping, or any other value
whose `str()` rendering is carried alongside (string rendering of
arbitrary foreign objects is environmental).  A mapping also carries
its `str()` rendering for the no-known-key fallthrough. -/
inductive ChunkVal where
  | null : ChunkVal
  | str (s : List Char) : ChunkVal
  | obj (content : ChunkVal) : ChunkVal
  | dict (entries : List (List Char × ChunkVal)) (asString : List Char) : ChunkVal
  | other (asString : List Char) : ChunkVal

/-- Python `key in value` / `value[key]` lookup on a mapping (keys are
unique in a dict, so first match suffices). -/
def lookupAssoc (entries : List (List Char × ChunkVal)) (key : List Char) :
    Option ChunkVal :=
  match entries with
  | [] => none
  | (k, v) :: rest => if k = key then some v else lookupAssoc rest key

/-- The key probe order of `_ensure_text`'s mapping branch. -/
def textKeys : List (List Char) :=
  ["text".toList, "content".toList, "message".toList, "value".toList]

/-- First value found among the probed keys, in probe order. -/
def lookupFirstKey (entries : List (List Char × ChunkVal)) :
    List (List Char) → Option ChunkVal
  | [] => none
  | k :: ks =>
    match lookupAssoc entries k with
    | some v => some v
    | none => lookupFirstKey entries ks

theorem lookupAssoc_sizeOf {entries : List (List Char × ChunkVal)}
    {key : List Char} {v : ChunkVal} (h : lookupAssoc entries key = some v) :
    sizeOf v < sizeOf entries := by
  induction entries with
  | nil => simp [lookupAssoc] at h
  | cons p rest ih =>
    obtain ⟨k, w⟩ := p
    by_cases hk : k = key
    · simp [lookupAssoc, hk] at h
      subst h
      simp
      omega
    · simp [lookupAssoc, hk] at h
      have := ih h
      simp
      omega

theorem lookupFirstKey_sizeOf {entries : List (List Char × ChunkVal)}
    {ks : List (List Char)} {v : ChunkVal}
    (h : lookupFirstKey entries ks = some v) : sizeOf v < sizeOf entries := by
  induction ks with
  | nil => simp [lookupFirstKey] at h
  | cons k ks ih =>
    unfold lookupFirstKey at h
    cases ha : lookupAssoc entries k with
    | some w =>
      rw [ha] at h
      cases h
      exact lookupAssoc_sizeOf ha
    | none =>
      rw [ha] at h
      exact ih h

/-- Embeds `_ensure_text` (src/chainlit/cl_app.py lines 67-82): `None`
becomes empty text; strings pass through; a `content` attribute is
followed recursively; a mapping is probed for the known text keys in
order and the found value followed recursively, falling back to the
mapping's `str()` rendering; anything else is stringified. -/
def ensureText : ChunkVal → List Char
  | .null => []
  | .str s => s
  | .obj c => ensureText c
  | .dict entries s =>
    match h : lookupFirstKey entries textKeys with
    | some v => ensureText v
    | none => s
  | .other s => s
termination_by c => sizeOf c
decreasing_by
  · simp
  · have := lookupFirstKey_sizeOf h
    simp
    omega

/-- Trace of one streaming generation attempt: the chunks the stream
yielded before it either finished or raised, and whether it raised. -/
structure StreamTrace where
  yielded : List ChunkVal
  raised : Bool

/-- The non-empty normalized tokens accumulated by the streaming loop
(src/chainlit/cl_app.py lines 285-292). -/
def streamTokens (tr : StreamTrace) : List (List Char) :=
  (tr.yielded.map ensureText).filter fun t => !t.isEmpty

/-- The fixed text shown when nothing was streamed. -/
def noAnswerText : List Char := "(No answer)".toList

/-- Embeds the answer aggregation of `on_message` (src/chainlit/cl_app.py
lines 282-313).  When the stream raises, one blocking call with the same
inputs is issued: on success `chunks` is REASSIGNED to the single
fallback text (line 302), so its text alone becomes the final content;
on failure the turn ends with an LLM error (modelled as `none`).  When
the stream completes, the final content is the concatenation of the
accumulated tokens, or the fixed no-answer text when none were kept. -/
def answerTurn (tr : StreamTrace) (fallbackResult : Option ChunkVal) :
    Option (List Char) :=
  if tr.raised then
    match fallbackResult with
    | some full => some (ensureText full)
    | none => none
  else
    let toks := streamTokens tr
    if toks = [] then some noAnswerText else some toks.flatten

theorem dropWhile_length_le (p : Char → Bool) (l : List Char) :
    (l.dropWhile p).length ≤ l.length := by
  induction l with
  | nil => simp
  | cons x xs ih =>
    by_cases h : p x
    · rw [List.dropWhile_cons_of_pos h]
      exact le_trans ih (by simp)
    · rw [List.dropWhile_cons_of_neg h]

theorem pyRStrip_length_le (s : List Char) : (pyRStrip s).length ≤ s.length := by
  have h := dropWhile_length_le isSpaceChar s.reverse
  simpa [pyRStrip] using h

theorem digitChar_isDigit (d : Nat) (hd : d < 10) : isDigitChar (digitChar d) = true := by
  interval_cases d <;> decide

theorem digitVal_digitChar (d : Nat) (hd : d < 10) : digitVal (digitChar d) = d := by
  interval_cases d <;> decide

theorem natDigitsAux_zero (fuel : Nat) : natDigitsAux fuel 0 = [] := by
  cases fuel <;> simp [natDigitsAux]

theorem parseNat_append_digit (xs : List Char) (c : Char) :
    parseNat (xs ++ [c]) = parseNat xs * 10 + digitVal c := by
  simp [parseNat, List.foldl_append]

theorem natDigitsAux_spec (fuel : Nat) : ∀ n, n ≤ fuel → n ≠ 0 →
    parseNat (natDigitsAux fuel n) = n ∧ natDigitsAux fuel n ≠ [] := by
  induction fuel with
  | zero => intro n h1 h2; omega
  | succ fuel ih =>
    intro n h1 h2
    simp only [natDigitsAux]
    rw [if_neg h2]
    by_cases h10 : n / 10 = 0
    · rw [h10, natDigitsAux_zero, List.nil_append]
      refine ⟨?_, by simp⟩
      have hlt : n % 10 < 10 := Nat.mod_lt _ (by omega)
      have hone : parseNat [digitChar (n % 10)] = digitVal (digitChar (n % 10)) := by
        simp [parseNat]
      rw [hone, digitVal_digitChar _ hlt]
      omega
    · have hle : n / 10 ≤ fuel := by omega
      obtain ⟨hp, hne⟩ := ih (n / 10) hle h10
      rw [parseNat_append_digit, hp]
      have hlt : n % 10 < 10 := Nat.mod_lt _ (by omega)
      rw [digitVal_digitChar _ hlt]
      exact ⟨by omega, by simp⟩

theorem parseNat_natDigits (n : Nat) : parseNat (natDigits n) = n := by
  by_cases h : n = 0
  · subst h; decide
  · simp only [natDigits, if_neg h]
    exact (natDigitsAux_spec n n le_rfl h).1

theorem natDigits_ne_nil (n : Nat) : natDigits n ≠ [] := by
  by_cases h : n = 0
  · subst h; decide
  · simp only [natDigits, if_neg h]
    exact (natDigitsAux_spec n n le_rfl h).2

theorem natDigitsAux_digits (fuel : Nat) : ∀ n c, c ∈ natDigitsAux fuel n →
    isDigitChar c = true := by
  induction fuel with
  | zero => intro n c h; simp [natDigitsAux] at h
  | succ fuel ih =>
    intro n c h
    simp only [natDigitsAux] at h
    by_cases hn : n = 0
    · rw [if_pos hn] at h; simp at h
    · rw [if_neg hn] at h
      rcases List.mem_append.mp h with h1 | h2
      · exact ih _ _ h1
      · simp at h2
        subst h2
        exact digitChar_isDigit _ (Nat.mod_lt _ (by omega))

theorem natDigits_all_digits (n : Nat) : ∀ c ∈ natDigits n, isDigitChar c = true := by
  intro c hc
  by_cases h : n = 0
  · subst h
    simp [natDigits] at hc
    subst hc
    decide
  · simp only [natDigits, if_neg h] at hc
    exact natDigitsAux_digits n n c hc

theorem takeWhile_append_stop (p : Char → Bool) (xs : List Char) (y : Char)
    (ys : List Char) (hall : ∀ c ∈ xs, p c = true) (hy : p y = false) :
    (xs ++ y :: ys).takeWhile p = xs := by
  induction xs with
  | nil => simp [List.takeWhile_cons, hy]
  | cons x xs ih =>
    have hx : p x = true := hall x (by simp)
    have hall2 : ∀ c ∈ xs, p c = true := fun c hc => hall c (by simp [hc])
    simp [List.takeWhile_cons, hx, ih hall2]

theorem headerNum_renderEntry (M i : Nat) (d : Passage) :
    headerNum (renderEntry M i d) = some i := by
  have h1 : (natDigits i ++ (']' :: ' ' :: renderEntryTail M d)).takeWhile isDigitChar
      = natDigits i :=
    takeWhile_append_stop _ _ _ _ (natDigits_all_digits i) (by decide)
  have h2 : (natDigits i ++ (']' :: ' ' :: renderEntryTail M d)).drop
      (natDigits i).length = ']' :: ' ' :: renderEntryTail M d := List.drop_left _ _
  simp only [renderEntry, headerNum, h1]
  rw [if_neg (natDigits_ne_nil i), h2, parseNat_natDigits]
  rfl

theorem renderLines_length (M : Nat) (docs : List Passage) :
    (renderLines M docs).length = docs.length := by
  simp [renderLines]

theorem filterMap_headerNum_renderLines (M : Nat) (docs : List Passage) :
    (renderLines M docs).filterMap headerNum = List.range' 1 docs.length := by
  unfold renderLines
  rw [List.filterMap_map]
  have hfe : (headerNum ∘ fun p : Nat × Passage => renderEntry M p.1 p.2)
      = some ∘ (Prod.fst : Nat × Passage → Nat) := by
    funext p
    exact headerNum_renderEntry M p.1 p.2
  rw [hfe, List.filterMap_eq_map]
  exact List.map_fst_zip _ _ (by simp)

theorem lookupById_mem (passages : List Passage) (i : Nat) (p : Passage)
    (h : lookupById passages i = some p) : p ∈ passages ∧ p.id = some i := by
  induction passages with
  | nil => simp [lookupById] at h
  | cons x rest ih =>
    simp only [lookupById] at h
    cases hr : lookupById rest i with
    | some q =>
      rw [hr] at h
      injection h with h
      subst h
      exact ⟨List.mem_cons_of_mem _ (ih hr).1, (ih hr).2⟩
    | none =>
      rw [hr] at h
      by_cases hx : x.id = some i
      · rw [if_pos hx] at h
        injection h with h
        subst h
        exact ⟨List.mem_cons_self _ _, hx⟩
      · rw [if_neg hx] at h
        simp at h

theorem call_reranker_transport_eq (passages : List Passage) (topK : Nat)
    (hp : passages ≠ []) :
    call_reranker .transportFail passages topK = .error 502 := by
  simp [call_reranker, hp]

theorem call_reranker_non200_eq (s : Nat) (entries : Option (List Entry))
    (passages : List Passage) (topK : Nat) (hp : passages ≠ []) (hs : s ≠ 200) :
    call_reranker (.response s entries) passages topK = .error 502 := by
  simp [call_reranker, hp, hs]

theorem call_reranker_200_eq (entries : Option (List Entry))
    (passages : List Passage) (topK : Nat) (hp : passages ≠ []) :
    call_reranker (.response 200 entries) passages topK
      = .ok (if mergeEntries passages ((entries.getD []).take topK) = []
             then passages.take topK
             else mergeEntries passages ((entries.getD []).take topK)) := by
  simp [call_reranker, hp]

theorem call_reranker_unparseable_eq (s : Nat) (passages : List Passage)
    (topK : Nat) (hp : passages ≠ []) :
    call_reranker (.responseUnparseable s) passages topK
      = .error (if s ≠ 200 then 502 else 500) := by
  by_cases hs : s ≠ 200 <;> simp [call_reranker, hp, hs]

/-- Supporting invariant for the app variant (src/app/retrieval.py):
every document returned by a successful `call_reranker` call has the id
of some input candidate, whether it came from the merge loop or from
the pass-through fallback. -/
theorem call_reranker_ids_from_input (reply : ScorerReply)
    (passages : List Passage) (topK : Nat) (docs : List Passage)
    (h : call_reranker reply passages topK = .ok docs) :
    ∀ d ∈ docs, ∃ p ∈ passages, d.id = p.id := by
  by_cases hp : passages = []
  · subst hp
    simp [call_reranker] at h
    subst h
    intro d hd
    simp at hd
  · cases reply with
    | transportFail =>
      rw [call_reranker_transport_eq passages topK hp] at h
      simp at h
    | response s entries =>
      by_cases hs : s = 200
      · subst hs
        rw [call_reranker_200_eq entries passages topK hp] at h
        simp only [RerankOutcome.ok.injEq] at h
        intro d hd
        rw [← h] at hd
        by_cases hm : mergeEntries passages ((entries.getD []).take topK) = []
        · rw [if_pos hm] at hd
          exact ⟨d, List.mem_of_mem_take hd, rfl⟩
        · rw [if_neg hm] at hd
          simp only [mergeEntries] at hd
          obtain ⟨e, _, hme⟩ := List.mem_filterMap.mp hd
          unfold mergeOne at hme
          split at hme
          · simp at hme
          · rename_i i hid
            split at hme
            · simp at hme
            · rename_i p hl
              injection hme with hme
              subst hme
              obtain ⟨hpm, hpid⟩ := lookupById_mem passages i p hl
              exact ⟨p, hpm, by simp [hpid]⟩
      · rw [call_reranker_non200_eq s entries passages topK hp hs] at h
        simp at h
    | responseUnparseable s =>
      rw [call_reranker_unparseable_eq s passages topK hp] at h
      simp at h

/-- C1 counterexample: `render_context`'s truncation (src/app/chain.py
line 95) keeps the first `M` characters (not `M - 1`) before appending
the ellipsis, so for the 4-character text "abcd" and limit 3 the output
has length 4, not `min 4 3 = 3` as the claim states. -/
theorem truncation_min_length_counterexample :
    (truncateSnippet 3 ['a', 'b', 'c', 'd']).length
      ≠ min (['a', 'b', 'c', 'd'] : List Char).length 3 := by decide

/-- C1 (amended): on overflow, `render_context`'s truncation keeps the
first `M` characters, right-strips them and appends one ellipsis, so
the output is `rstrip(text[:M]) + ellipsis` of length at most `M + 1`;
within the limit the text is unchanged; the display helper `_shorten`
cuts to `M - 1` characters but appends its three-character
(double-encoded) ellipsis literal, giving length `M + 2` on overflow. -/
theorem truncation_behavior (t text : List Char) (M : Nat) :
    (M ≠ 0 → t.length > M →
      truncateSnippet M t = pyRStrip (t.take M) ++ [ellipsisChar]
        ∧ (truncateSnippet M t).length ≤ M + 1)
    ∧ (t.length ≤ M → truncateSnippet M t = t)
    ∧ (1 ≤ M → (pyStrip text).length > M → text ≠ [] →
        pyShorten text M = (pyStrip text).take (M - 1) ++ mojibakeEllipsis
          ∧ (pyShorten text M).length = M + 2) := by
  refine ⟨?_, ?_, ?_⟩
  · intro hM hlen
    have heq : truncateSnippet M t = pyRStrip (t.take M) ++ [ellipsisChar] := by
      unfold truncateSnippet
      rw [if_pos ⟨hM, hlen⟩]
    refine ⟨heq, ?_⟩
    rw [heq]
    have h1 := pyRStrip_length_le (t.take M)
    have h2 : (t.take M).length = min M t.length := List.length_take M t
    simp only [List.length_append, List.length_cons, List.length_nil]
    omega
  · intro hle
    unfold truncateSnippet
    rw [if_neg (by omega)]
  · intro hM hlen hne
    have heq : pyShorten text M = (pyStrip text).take (M - 1) ++ mojibakeEllipsis := by
      unfold pyShorten
      rw [if_neg hne]
      simp only []
      rw [if_pos hlen]
    refine ⟨heq, ?_⟩
    rw [heq]
    have h2 : ((pyStrip text).take (M - 1)).length = min (M - 1) (pyStrip text).length :=
      List.length_take _ _
    have h3 : mojibakeEllipsis.length = 3 := by decide
    simp only [List.length_append]
    omega

theorem truncation_behavior_witness :
    (truncateSnippet 3 ['a', 'b', 'c', 'd']
        = pyRStrip (['a', 'b', 'c', 'd'].take 3) ++ [ellipsisChar]
      ∧ (truncateSnippet 3 ['a', 'b', 'c', 'd']).length ≤ 3 + 1)
    ∧ truncateSnippet 3 ['a', 'b'] = ['a', 'b']
    ∧ (pyShorten ['a', 'b', 'c', 'd', 'e'] 3).length = 3 + 2 := by
  refine ⟨(truncation_behavior ['a', 'b', 'c', 'd'] ['x'] 3).1 (by decide) (by decide),
    (truncation_behavior ['a', 'b'] ['x'] 3).2.1 (by decide), ?_⟩
  exact ((truncation_behavior ['a'] ['a', 'b', 'c', 'd', 'e'] 3).2.2
    (by decide) (by decide) (by decide)).2

/-- C2 counterexample: a transport exception during the scorer call
makes `call_reranker` raise `HTTPException(502)` (src/app/retrieval.py
lines 203-206) instead of returning the first `topK` candidates. -/
theorem reranker_transport_counterexample :
    call_reranker .transportFail [samplePassage] 1 = .error 502
    ∧ call_reranker .transportFail [samplePassage] 1 ≠ .ok ([samplePassage].take 1) := by
  decide

/-- C2 (amended): a transport exception aborts the turn with a 502
upstream-rerank error exactly like a non-200 scorer status; only the
soft cases (missing/empty result list, or no entry surviving the id
merge) degrade to the first-topK pass-through fallback. -/
theorem reranker_failure_modes (passages : List Passage) (topK : Nat)
    (h : passages ≠ []) :
    call_reranker .transportFail passages topK = .error 502
    ∧ (∀ s entries, s ≠ 200 →
        call_reranker (.response s entries) passages topK = .error 502)
    ∧ call_reranker (.response 200 none) passages topK = .ok (passages.take topK) := by
  refine ⟨by simp [call_reranker, h], ?_, ?_⟩
  · intro s entries hs
    simp [call_reranker, h, hs]
  · simp [call_reranker, h, mergeEntries]

theorem reranker_failure_modes_witness :
    call_reranker .transportFail [samplePassage] 2 = .error 502
    ∧ call_reranker (.response 404 none) [samplePassage] 2 = .error 502
    ∧ call_reranker (.response 200 none) [samplePassage] 2
        = .ok ([samplePassage].take 2) := by
  have h := reranker_failure_modes [samplePassage] 2 (by decide)
  exact ⟨h.1, h.2.1 404 none (by decide), h.2.2⟩

/-- C3 counterexample: the claim covers an "unparseable" result list,
but on a 200 reply whose body defeats the result-list extraction the
code raises outside any try (src/app/retrieval.py line 213 `r.json()`,
lines 219-220 slice/`item.get`), aborting the turn instead of
returning the first `min n topK` candidates. -/
theorem reranker_unparseable_counterexample :
    call_reranker (.responseUnparseable 200) [samplePassage] 1 = .error 500
    ∧ call_reranker (.responseUnparseable 200) [samplePassage] 1
        ≠ .ok ([samplePassage].take 1) := by decide

/-- C3 (amended): the `min n topK` pass-through happens only when the
scorer soft-fails with a FALSY result-list extraction (a 200 body that
parses but holds neither accepted key, or an empty list under one):
then the first `topK` candidates come back unmodified in original
retrieval order; a 200 body that is invalid JSON or whose truthy result
list is malformed raises an uncaught exception and aborts the turn
instead; and an empty candidate list short-circuits to `[]` for every
possible reply (no external call can influence it). -/
theorem reranker_soft_fail_passthrough (passages : List Passage) (topK : Nat) :
    call_reranker (.response 200 none) passages topK = .ok (passages.take topK)
    ∧ call_reranker (.response 200 (some [])) passages topK = .ok (passages.take topK)
    ∧ (passages.take topK).length = min passages.length topK
    ∧ (∀ reply, call_reranker reply [] topK = .ok [])
    ∧ (passages ≠ [] →
        call_reranker (.responseUnparseable 200) passages topK = .error 500) := by
  refine ⟨?_, ?_, ?_, ?_, ?_⟩
  · by_cases h : passages = []
    · subst h; simp [call_reranker]
    · simp [call_reranker, h, mergeEntries]
  · by_cases h : passages = []
    · subst h; simp [call_reranker]
    · simp [call_reranker, h, mergeEntries]
  · rw [List.length_take]
    exact Nat.min_comm topK passages.length
  · intro reply
    simp [call_reranker]
  · intro h
    simp [call_reranker, h]

theorem reranker_soft_fail_passthrough_witness :
    call_reranker (.response 200 none) [samplePassage] 2 = .ok ([samplePassage].take 2)
    ∧ call_reranker (.response 200 (some [])) [samplePassage] 2
        = .ok ([samplePassage].take 2)
    ∧ call_reranker (.responseUnparseable 200) [samplePassage] 2 = .error 500 := by
  have h := reranker_soft_fail_passthrough [samplePassage] 2
  exact ⟨h.1, h.2.1, h.2.2.2.2 (by decide)⟩

/-- C4: the root src/main.py merge loop (lines 151-156) has no
`continue` guard, so a scorer entry whose id matches no candidate is
kept as a bare id/score record: with the single candidate
`samplePassage` (id 1) and a 200 reply naming the unknown id 99, the
output contains a document whose id exists in no input candidate,
contradicting the claimed invariant (the app variant,
src/app/retrieval.py line 221-222, does drop such entries — see
`call_reranker_ids_from_input`). -/
theorem call_reranker_mainpy_keeps_unknown_id :
    call_reranker_mainpy (.response 200 (some [{ id := some 99, score := 7 }]))
        [samplePassage] 5
      = .ok [{ emptyBase with id := some 99, score := 7 }]
    ∧ [samplePassage].map Passage.id = [some 1]
    ∧ (some 99 : Option Nat) ≠ some 1 := by decide

/-- C9: a scorer entry successfully matched by id yields a merged
document in the rerank output whose fields are exactly the original
candidate's, with `id` and `score` taken from the scorer entry
(returned fields win). -/
theorem merge_preserves_fields (passages : List Passage) (es : List Entry)
    (topK : Nat) (docs : List Passage) (e : Entry) (i : Nat) (p : Passage)
    (h : call_reranker (.response 200 (some es)) passages topK = .ok docs)
    (he : e ∈ es.take topK) (hid : e.id = some i)
    (hp : lookupById passages i = some p) :
    ∃ q ∈ docs, q.id = some i ∧ q.score = e.score ∧ q.title = p.title
      ∧ q.text = p.text ∧ q.pmid = p.pmid ∧ q.s3 = p.s3 ∧ q.url = p.url := by
  have hpe : passages ≠ [] := by
    intro hnil
    rw [hnil] at hp
    simp [lookupById] at hp
  have hq0 : mergeOne passages e = some { p with id := some i, score := e.score } := by
    simp [mergeOne, hid, hp]
  have hmem : { p with id := some i, score := e.score }
      ∈ mergeEntries passages (es.take topK) :=
    List.mem_filterMap.mpr ⟨e, he, hq0⟩
  have hne : mergeEntries passages (es.take topK) ≠ [] := List.ne_nil_of_mem hmem
  rw [call_reranker_200_eq (some es) passages topK hpe] at h
  simp only [Option.getD_some, RerankOutcome.ok.injEq] at h
  rw [if_neg hne] at h
  subst h
  exact ⟨{ p with id := some i, score := e.score }, hmem, rfl, rfl, rfl, rfl, rfl,
    rfl, rfl⟩

theorem merge_preserves_fields_witness :
    ∃ q ∈ [{ samplePassage with score := (9 : Int) }], q.id = some 1
      ∧ q.score = 9 ∧ q.title = samplePassage.title ∧ q.text = samplePassage.text
      ∧ q.pmid = samplePassage.pmid ∧ q.s3 = samplePassage.s3
      ∧ q.url = samplePassage.url :=
  merge_preserves_fields [samplePassage] [{ id := some 1, score := 9 }] 1
    [{ samplePassage with score := 9 }] { id := some 1, score := 9 } 1 samplePassage
    (by decide) (by decide) rfl (by decide)

/-- C10: a successful rerank of a non-empty candidate list with a
positive `topK` never yields an empty result and never more than `topK`
documents; in particular a 200 reply whose entries all fail the id
lookup drops to the first-topK pass-through (witness below). -/
theorem rerank_nonempty_bounded (reply : ScorerReply) (passages : List Passage)
    (topK : Nat) (docs : List Passage) (hp : passages ≠ []) (ht : 1 ≤ topK)
    (h : call_reranker reply passages topK = .ok docs) :
    docs ≠ [] ∧ docs.length ≤ topK := by
  cases reply with
  | transportFail =>
    rw [call_reranker_transport_eq passages topK hp] at h
    simp at h
  | response s entries =>
    by_cases hs : s = 200
    · subst hs
      rw [call_reranker_200_eq entries passages topK hp] at h
      simp only [RerankOutcome.ok.injEq] at h
      by_cases hm : mergeEntries passages ((entries.getD []).take topK) = []
      · rw [if_pos hm] at h
        subst h
        constructor
        · intro hnil
          rcases List.take_eq_nil_iff.mp hnil with h0 | h0
          · omega
          · exact hp h0
        · rw [List.length_take]
          exact Nat.min_le_left _ _
      · rw [if_neg hm] at h
        subst h
        refine ⟨hm, ?_⟩
        calc (mergeEntries passages ((entries.getD []).take topK)).length
            ≤ ((entries.getD []).take topK).length := by
              simp only [mergeEntries]
              exact List.length_filterMap_le _ _
          _ ≤ topK := List.length_take_le _ _
    · rw [call_reranker_non200_eq s entries passages topK hp hs] at h
      simp at h
  | responseUnparseable s =>
    rw [call_reranker_unparseable_eq s passages topK hp] at h
    simp at h

theorem rerank_nonempty_bounded_witness :
    call_reranker (.response 200 (some [{ id := some 99, score := 7 }]))
        [samplePassage] 1 = .ok [samplePassage]
    ∧ ([samplePassage] ≠ [] ∧ [samplePassage].length ≤ 1) :=
  ⟨by decide,
   rerank_nonempty_bounded (.response 200 (some [{ id := some 99, score := 7 }]))
     [samplePassage] 1 [samplePassage] (by decide) (by decide) (by decide)⟩

/-- C6: a turn whose retrieval returns zero candidates responds with
exactly the fixed apology and an empty source list, for every possible
scorer reply and LLM result and regardless of the pooled client's
readiness — i.e. the short-circuit fires before, and independently of,
the Rerank-Merge and Generator stages. -/
theorem empty_retrieval_short_circuit (httpReady : Bool) (reply : ScorerReply)
    (llmAnswer : Option (List Char)) (k topK : Nat) :
    query [] httpReady reply llmAnswer k topK = .ok apology [] := rfl

/-- C8: whenever a /query turn completes with an answer, the source
records are exactly one projection per reranked document, the rendered
context has exactly one citation-headed entry per reranked document,
and the citation numbers parsed back out of those headers are exactly
`1..len` in strictly increasing order, position-aligned with the source
records. -/
theorem sources_context_alignment (raw : List Passage) (httpReady : Bool)
    (reply : ScorerReply) (llmAnswer : Option (List Char)) (k topK M : Nat)
    (ans : List Char) (srcs : List SourceRecord)
    (hq : query raw httpReady reply llmAnswer k topK = .ok ans srcs) :
    ∃ reranked, call_reranker reply raw (capTopK topK (capK k)) = .ok reranked
      ∧ srcs.length = reranked.length
      ∧ (renderLines M reranked).length = reranked.length
      ∧ (renderLines M reranked).filterMap headerNum
          = List.range' 1 reranked.length := by
  by_cases hraw : raw = []
  · subst hraw
    have hsrc : srcs = [] := by
      have h0 : query ([] : List Passage) httpReady reply llmAnswer k topK
          = .ok apology [] := rfl
      rw [h0] at hq
      injection hq with h1 h2
      exact h2.symm
    subst hsrc
    exact ⟨[], by simp [call_reranker], rfl, rfl, rfl⟩
  · simp only [query] at hq
    rw [if_neg hraw] at hq
    cases httpReady with
    | false => simp at hq
    | true =>
      simp only [Bool.true_eq_false, if_false] at hq
      cases hcr : call_reranker reply raw (capTopK topK (capK k)) with
      | error s =>
        rw [hcr] at hq
        simp at hq
      | ok reranked =>
        rw [hcr] at hq
        cases llmAnswer with
        | none => simp at hq
        | some a =>
          simp only [TurnResult.ok.injEq] at hq
          refine ⟨reranked, rfl, ?_, renderLines_length M reranked,
            filterMap_headerNum_renderLines M reranked⟩
          rw [← hq.2]
          simp

theorem sources_context_alignment_witness :
    ∃ reranked, call_reranker (.response 200 none) [samplePassage]
        (capTopK 5 (capK 25)) = .ok reranked
      ∧ ([samplePassage].map toSource).length = reranked.length
      ∧ (renderLines 1200 reranked).length = reranked.length
      ∧ (renderLines 1200 reranked).filterMap headerNum
          = List.range' 1 reranked.length :=
  sources_context_alignment [samplePassage] true (.response 200 none)
    (some ['o', 'k']) 25 5 1200 (pyStrip ['o', 'k'])
    ([samplePassage].map toSource) (by decide)

/-- C5 counterexample: with the token "Hi" already streamed when the
stream raises and a blocking fallback returning "Yo", the final content
is "Yo" alone (src/chainlit/cl_app.py line 302 reassigns `chunks`), not
the streamed concatenation "Hi" the claim requires when streamed
content exists. -/
theorem stream_fallback_replaces_counterexample :
    answerTurn ⟨[ChunkVal.str ['H', 'i']], true⟩ (some (ChunkVal.str ['Y', 'o']))
        = some ['Y', 'o']
    ∧ answerTurn ⟨[ChunkVal.str ['H', 'i']], true⟩ (some (ChunkVal.str ['Y', 'o']))
        ≠ some ['H', 'i'] := by
  constructor
  · simp [answerTurn, ensureText]
  · simp [answerTurn, ensureText]

/-- C5 (amended): when the stream raises, one blocking call with the
same inputs is made and, on success, its full text ALONE becomes the
final answer, discarding any already-streamed tokens (on failure the
turn aborts with no answer); the streamed concatenation is the final
answer only when the stream completes without raising, with the fixed
no-answer text when nothing non-empty was streamed. -/
theorem stream_fallback_policy (tr : StreamTrace) (fb : Option ChunkVal) :
    (tr.raised = true → answerTurn tr fb = Option.map ensureText fb)
    ∧ (tr.raised = false → streamTokens tr ≠ [] →
        answerTurn tr fb = some (streamTokens tr).flatten)
    ∧ (tr.raised = false → streamTokens tr = [] →
        answerTurn tr fb = some noAnswerText) := by
  refine ⟨?_, ?_, ?_⟩
  · intro hr
    cases fb with
    | none => simp [answerTurn, hr]
    | some full => simp [answerTurn, hr]
  · intro hr hne
    simp [answerTurn, hr, hne]
  · intro hr hnil
    simp [answerTurn, hr, hnil]

theorem stream_fallback_policy_witness :
    answerTurn ⟨[ChunkVal.str ['A']], true⟩ (some (ChunkVal.str ['B']))
        = Option.map ensureText (some (ChunkVal.str ['B']))
    ∧ answerTurn ⟨[ChunkVal.str ['A']], false⟩ none
        = some (streamTokens ⟨[ChunkVal.str ['A']], false⟩).flatten := by
  constructor
  · exact (stream_fallback_policy ⟨[ChunkVal.str ['A']], true⟩
      (some (ChunkVal.str ['B']))).1 rfl
  · refine (stream_fallback_policy ⟨[ChunkVal.str ['A']], false⟩ none).2.1 rfl ?_
    simp [streamTokens, ensureText]

/-- C7 counterexample: a model reply that strips to empty does not
yield `Continue` with that reply text; the code falls through to the
fixed clarify-more prompt (src/chainlit/cl_app.py lines 210-226). -/
theorem clarifier_empty_reply_counterexample :
    phase0 false ['h', 'i'] (some [' ']) = .reply clarifyMoreText
    ∧ Phase0.reply clarifyMoreText ≠ .reply [' ']
    ∧ Phase0.reply clarifyMoreText ≠ .reply [] := by decide

/-- C7 (amended): on a turn whose utterance is not a `/rag ` escape, a
stripped model reply starting with the ready marker proceeds to search
with the stripped remainder (or the original utterance when that
remainder is empty); a non-marker reply continues the conversation with
the stripped reply text when it is non-empty, and with the fixed
clarify-more prompt when it is empty or the clarifier call failed; no
retrieval call is made on any `reply` outcome. -/
theorem clarifier_decision (q out : List Char)
    (hq : hasPrefixL ragCommand q = false) :
    (hasPrefixL readyMarker (pyStrip out) = true →
      phase0 false q (some out) = .search
        (if pyStrip ((pyStrip out).drop readyMarker.length) = [] then q
         else pyStrip ((pyStrip out).drop readyMarker.length)))
    ∧ (hasPrefixL readyMarker (pyStrip out) = false → pyStrip out ≠ [] →
        phase0 false q (some out) = .reply (pyStrip out))
    ∧ (hasPrefixL readyMarker (pyStrip out) = false → pyStrip out = [] →
        phase0 false q (some out) = .reply clarifyMoreText)
    ∧ phase0 false q none = .reply clarifyMoreText := by
  refine ⟨?_, ?_, ?_, ?_⟩
  · intro hm
    simp [phase0, hq, hm]
  · intro hm hne
    simp [phase0, hq, hm, hne]
  · intro hm hnil
    have hm0 : hasPrefixL readyMarker ([] : List Char) = false := by decide
    simp [phase0, hq, hnil, hm0]
  · have h0 : pyStrip ([] : List Char) = [] := rfl
    have hm0 : hasPrefixL readyMarker ([] : List Char) = false := by decide
    simp [phase0, hq, h0, hm0]

theorem clarifier_decision_witness :
    phase0 false ['h', 'i'] (some ("READY: cats".toList))
        = .search
          (if pyStrip ((pyStrip ("READY: cats".toList)).drop readyMarker.length) = []
           then ['h', 'i']
           else pyStrip ((pyStrip ("READY: cats".toList)).drop readyMarker.length))
    ∧ phase0 false ['h', 'i'] (some ['y', 'o']) = .reply (pyStrip ['y', 'o']) := by
  constructor
  · exact (clarifier_decision ['h', 'i'] ("READY: cats".toList) (by decide)).1
      (by decide)
  · exact (clarifier_decision ['h', 'i'] ['y', 'o'] (by decide)).2.1 (by decide)
      (by decide)
